import Mathlib

namespace Xiaoshuo

/-!
Verification of the generation-orchestration core of the `xiaoshuo` novel-writing
application. The TypeScript sources are shallowly embedded: asynchronous
operations become functions from an invocation index (or an oracle of external
outcomes) to `Except`-valued results, mutable component state becomes explicit
state passing, and the external provider / file-system / storage collaborators
become explicit outcome oracles. All embedded definitions are translated from
the sources under `src/`.
-/

/-! ## Data model (src/unnamed/part_000: types.ts) -/

/-- `NovelConfig` record from `types.ts`. -/
structure NovelConfig where
  title : String
  genre : String
  tone : String
  protagonist : String
  worldSetting : String
  writingStyle : String
  targetChapterCount : Nat
  targetWordCount : Nat
  additionalNotes : String
deriving DecidableEq, Repr

/-- `Chapter` record from `types.ts`. -/
structure Chapter where
  id : String
  title : String
  summary : String
  content : String
  isGenerated : Bool
deriving DecidableEq, Repr

/-- `AppStep` enum from `types.ts`. -/
inductive AppStep where
  | SETUP
  | OUTLINE
  | CHAPTERS
  | WRITING
deriving DecidableEq, Repr

/-- `Novel` record from `types.ts`. `lastModified` is a timestamp. -/
structure Novel where
  id : String
  lastModified : Nat
  config : NovelConfig
  outline : String
  chapters : List Chapter
  currentChapterId : Option String
  step : AppStep
deriving DecidableEq, Repr

/-! ## Failure model

A JavaScript exception thrown by the provider carries an optional numeric
`status` and an optional `message` string (`error.status`, `error.message?`). -/

/-- Model of a provider failure object (`error.status`, `error.message`). -/
structure AiError where
  status : Option Nat
  message : Option String
deriving DecidableEq, Repr

/-- Is `pat` a prefix of `l` (character lists)? -/
def isPrefixChars (pat l : List Char) : Bool :=
  decide (pat.length ≤ l.length) && (List.zip pat l).all (fun pr => pr.1 == pr.2)

/-- Does `l` contain `pat` as a contiguous sublist? -/
def hasSubChars (pat : List Char) : List Char → Bool
  | [] => isPrefixChars pat []
  | c :: cs => isPrefixChars pat (c :: cs) || hasSubChars pat cs

/-- JavaScript `s.includes(pat)`. -/
def strIncludes (s pat : String) : Bool := hasSubChars pat.data s.data

/-- Transient-overload test from `callAIWithRetry` (src/geminiService.ts line 39):
`error.status === 503 || error.status === 500 || error.message?.includes("overloaded")`. -/
def isTransientError (e : AiError) : Bool :=
  e.status == some 503 || e.status == some 500 ||
    (match e.message with
     | some m => strIncludes m ("overloaded")
     | none => false)

/-! ## Retry Policy (src/geminiService.ts `callAIWithRetry`)

The wrapped zero-argument asynchronous operation is embedded as a function
`op : Nat → Except AiError T` giving the outcome of its `n`-th invocation
(0-based). The trace records the final result, the list of waits performed
(each `await delay(baseDelay)` before a retry), and the number of invocations. -/

/-- Observable trace of one `callAIWithRetry` run. -/
structure RetryTrace (T : Type) where
  result : Except AiError T
  delays : List Nat
  calls : Nat
deriving Repr

/-- `callAIWithRetry(operation, retries = 3, baseDelay = 2000)` from
src/geminiService.ts lines 31-46: on failure, if `retries > 0` and the failure
is transient, wait `baseDelay` and recurse with `retries - 1` and
`baseDelay * 2`; otherwise rethrow. `attempt` indexes the invocation. -/
def callAIWithRetry {T : Type} (op : Nat → Except AiError T) :
    Nat → Nat → Nat → RetryTrace T
  | attempt, 0, _b =>
    match op attempt with
    | Except.ok v => ⟨Except.ok v, [], 1⟩
    | Except.error e => ⟨Except.error e, [], 1⟩
  | attempt, r + 1, b =>
    match op attempt with
    | Except.ok v => ⟨Except.ok v, [], 1⟩
    | Except.error e =>
      if isTransientError e then
        let rest := callAIWithRetry op (attempt + 1) r (b * 2)
        ⟨rest.result, b :: rest.delays, rest.calls + 1⟩
      else ⟨Except.error e, [], 1⟩

/-- Concrete operation for the C1 witness: fails transiently twice
(status 503, then an "overloaded" message), then succeeds with 42. -/
def retryDemoOp : Nat → Except AiError Nat := fun i =>
  if i = 0 then Except.error ⟨some 503, none⟩
  else if i = 1 then Except.error ⟨none, some ("model is overloaded, try later")⟩
  else Except.ok 42

/-! ## Context Window Builder (src/components/WriterInterface.tsx `getContext`) -/

/-- Fixed "no prior context" marker (`getContext`, line 44). -/
def NO_PRIOR_CONTEXT : String := "这是第一章，暂无前情提要。"

/-- Marker prefixed to a planned-but-unwritten predecessor's synopsis (line 53). -/
def SUMMARY_MARKER : String := "【上章梗概】："

/-- Marker prefixed to the trailing slice of the predecessor's body (line 56). -/
def BODY_TAIL_MARKER : String := "【上章正文结尾】：\n..."

/-- JavaScript `s.slice(-n)`: the last `n` characters (all of `s` if shorter). -/
def takeLastChars (s : String) (n : Nat) : String :=
  String.mk (s.data.drop (s.length - n))

/-- `getContext(currentChap, allChapters)` from WriterInterface.tsx lines 42-60:
position 0 (or chapter not found) yields the fixed marker; otherwise the
predecessor's synopsis (body shorter than 50 chars) or the last 3000 characters
of its body, each behind its marker. -/
def getContext (currentChap : Chapter) (allChapters : List Chapter) : String :=
  match allChapters.findIdx? (fun c => c.id == currentChap.id) with
  | some (i + 1) =>
    match allChapters[i]? with
    | some prevChapter =>
      if prevChapter.content.length < 50 then SUMMARY_MARKER ++ prevChapter.summary
      else BODY_TAIL_MARKER ++ takeLastChars prevChapter.content 3000
    | none => NO_PRIOR_CONTEXT
  | _ => NO_PRIOR_CONTEXT

/-- A predecessor chapter whose body is exactly 50 characters long. -/
def c4chA : Chapter :=
  { id := "a", title := "t1", summary := "s1",
    content := String.mk (List.replicate 50 'x'), isGenerated := true }

/-- The chapter at position 1, whose context is built from `c4chA`. -/
def c4chB : Chapter :=
  { id := "b", title := "t2", summary := "s2", content := "", isGenerated := false }

/-! ## Unit-content generation (src/geminiService.ts `generateChapterContent`)

The provider response carries `text : string | undefined`, embedded as
`Option String`. -/

/-- Sentinel returned for empty provider output
(`response.text || "生成内容为空。"`, geminiService.ts line 277). -/
def EMPTY_CONTENT_MARK : String := "生成内容为空。"

/-- The content produced by one successful `generateChapterContent` response:
`response.text || "生成内容为空。"` (JavaScript `||` treats both `undefined`
and the empty string as falsy). -/
def chapterContentOfText (t : Option String) : String :=
  match t with
  | none => EMPTY_CONTENT_MARK
  | some s => if s = "" then EMPTY_CONTENT_MARK else s

/-- `generateChapterContent` observable behaviour: the retried operation maps
each provider outcome (`providerCalls i`) through the `||`-defaulting above
(src/geminiService.ts lines 267-278). -/
def generateChapterContent (providerCalls : Nat → Except AiError (Option String)) :
    RetryTrace String :=
  callAIWithRetry (fun i => (providerCalls i).map chapterContentOfText) 0 3 2000

/-! ## Working state and storage persistence (src/App.tsx)

`localStorage` is modelled as the last value written under the library key
(`Option (List Novel)`, `none` = key absent); `JSON.stringify`/`JSON.parse`
round-tripping is taken as the identity on the stored library. -/

/-- The persistence effect of App.tsx lines 44-49: after `novels` changes, the
library is written to storage only when `novels.length > 0`; otherwise the
stored value is left untouched. Returns the storage contents after the effect
settles. -/
def persistLibraryEffect (novels : List Novel) (stored : Option (List Novel)) :
    Option (List Novel) :=
  if novels.length > 0 then some novels else stored

/-- `handleDeleteNovel(id)` from App.tsx lines 123-126: removes the document by
identity and clears the active selection when it pointed at the deleted one.
Returns the new collection and active id. -/
def handleDeleteNovel (novels : List Novel) (activeNovelId : Option String)
    (id : String) : List Novel × Option String :=
  (novels.filter (fun n => ¬(n.id = id)),
   if activeNovelId = some id then none else activeNovelId)

/-- A concrete one-document library for the C10 counterexample. -/
def c10novel : Novel :=
  { id := "n1", lastModified := 1700000000,
    config := { title := "测试", genre := "玄幻", tone := "热血",
                protagonist := "主角", worldSetting := "世界",
                writingStyle := "智商在线，剧情紧凑",
                targetChapterCount := 50, targetWordCount := 3000,
                additionalNotes := "" },
    outline := "大纲", chapters := [], currentChapterId := none,
    step := AppStep.WRITING }

/-! ## JSON values and `JSON.parse` (used by `generateTrendConfig` and
`generateChapterBatch` in src/geminiService.ts) -/

/-- JSON value. Numeric literals keep their source text. -/
inductive Json where
  | null : Json
  | bool : Bool → Json
  | num : String → Json
  | str : String → Json
  | arr : List Json → Json
  | obj : List (String × Json) → Json

/-- Opening brace character (written by code point to keep string literals
brace-free). -/
def lbrace : Char := Char.ofNat 123

/-- Closing brace character. -/
def rbrace : Char := Char.ofNat 125

/-- Backtick character. -/
def backtickChar : Char := Char.ofNat 96

/-- JavaScript whitespace as used by `trim` / `\s` on the inputs at hand. -/
def isJsWs (c : Char) : Bool :=
  c == ' ' || (9 ≤ c.toNat && c.toNat ≤ 13)

/-- Hexadecimal digit value. -/
def hexDigitVal (c : Char) : Option Nat :=
  let n := c.toNat
  if 48 ≤ n ∧ n ≤ 57 then some (n - 48)
  else if 97 ≤ n ∧ n ≤ 102 then some (n - 87)
  else if 65 ≤ n ∧ n ≤ 70 then some (n - 55)
  else none

/-- Decoding of a single-character JSON escape. -/
def jsonEscapeDecode (e : Char) : Option Char :=
  if e == '"' || e == '\\' || e == '/' then some e
  else if e == 'n' then some (Char.ofNat 10)
  else if e == 't' then some (Char.ofNat 9)
  else if e == 'r' then some (Char.ofNat 13)
  else if e == 'b' then some (Char.ofNat 8)
  else if e == 'f' then some (Char.ofNat 12)
  else none

/-- JSON string-literal body: characters up to the closing quote, decoding
escapes. Returns the decoded characters and the remainder after the quote. -/
def parseStrChars : List Char → Option (List Char × List Char)
  | [] => none
  | '"' :: cs => some ([], cs)
  | '\\' :: 'u' :: h1 :: h2 :: h3 :: h4 :: cs =>
    match hexDigitVal h1, hexDigitVal h2, hexDigitVal h3, hexDigitVal h4,
        parseStrChars cs with
    | some a, some b, some c, some d, some (l, r) =>
      some (Char.ofNat (a * 4096 + b * 256 + c * 16 + d) :: l, r)
    | _, _, _, _, _ => none
  | '\\' :: e :: cs =>
    match jsonEscapeDecode e, parseStrChars cs with
    | some d, some (l, r) => some (d :: l, r)
    | _, _ => none
  | c :: cs =>
    match parseStrChars cs with
    | some (l, r) => some (c :: l, r)
    | none => none

/-- Longest leading run of decimal digits. -/
def spanDigits : List Char → List Char × List Char
  | [] => ([], [])
  | c :: cs =>
    if c.isDigit then
      let (d, r) := spanDigits cs
      (c :: d, r)
    else ([], c :: cs)

/-- Exponent digits (with optional sign) of a JSON number. -/
def parseNumExpTail (numPart : List Char) (echar : Char) (cs : List Char) :
    Option (List Char × List Char) :=
  let (sign, cs1) :=
    match cs with
    | '+' :: t => (['+'], t)
    | '-' :: t => (['-'], t)
    | _ => ([], cs)
  let (d, r) := spanDigits cs1
  if d = [] then none else some (numPart ++ echar :: (sign ++ d), r)

/-- Optional exponent part of a JSON number. -/
def parseNumExp (numPart : List Char) (cs : List Char) :
    Option (List Char × List Char) :=
  match cs with
  | 'e' :: t => parseNumExpTail numPart 'e' t
  | 'E' :: t => parseNumExpTail numPart 'E' t
  | _ => some (numPart, cs)

/-- Optional fraction then exponent after the integer part of a JSON number. -/
def parseNumFrac (intPart : List Char) (cs : List Char) :
    Option (List Char × List Char) :=
  match cs with
  | '.' :: t =>
    let (d, r) := spanDigits t
    if d = [] then none else parseNumExp (intPart ++ '.' :: d) r
  | _ => parseNumExp intPart cs

/-- JSON numeric literal: `-? (0 | [1-9][0-9]*) frac? exp?`. Returns the
literal characters and the remainder. -/
def parseNumberLit (cs : List Char) : Option (List Char × List Char) :=
  let (negPart, cs1) :=
    match cs with
    | '-' :: t => ((['-'] : List Char), t)
    | _ => (([] : List Char), cs)
  match cs1 with
  | '0' :: t => parseNumFrac (negPart ++ ['0']) t
  | c :: t =>
    if c.isDigit then
      let (d, r) := spanDigits t
      parseNumFrac (negPart ++ c :: d) r
    else none
  | [] => none

/-- Drop leading JSON whitespace. -/
def skipWs : List Char → List Char
  | c :: cs => if isJsWs c then skipWs cs else c :: cs
  | [] => []

/-- Parsing mode of the JSON recursive-descent core: a value, the fields of an
object (after `{`, known non-empty), or the elements of an array (after `[`,
known non-empty). -/
inductive PMode where
  | val
  | objFields
  | arrElems

/-- Result of one core parsing step, depending on the mode. -/
inductive POut where
  | v : Json → POut
  | fs : List (String × Json) → POut
  | es : List Json → POut

/-- Recursive-descent core of `JSON.parse`, fuel-indexed so that the recursion
is structural. -/
def parseCore : Nat → PMode → List Char → Option (POut × List Char)
  | 0, _, _ => none
  | fuel + 1, PMode.val, cs =>
    match skipWs cs with
    | 'n' :: 'u' :: 'l' :: 'l' :: rest => some (POut.v Json.null, rest)
    | 't' :: 'r' :: 'u' :: 'e' :: rest => some (POut.v (Json.bool true), rest)
    | 'f' :: 'a' :: 'l' :: 's' :: 'e' :: rest => some (POut.v (Json.bool false), rest)
    | '"' :: rest =>
      match parseStrChars rest with
      | some (l, r) => some (POut.v (Json.str (String.mk l)), r)
      | none => none
    | c :: rest =>
      if c = lbrace then
        match skipWs rest with
        | d :: rest2 =>
          if d = rbrace then some (POut.v (Json.obj []), rest2)
          else
            match parseCore fuel PMode.objFields (d :: rest2) with
            | some (POut.fs l, r) => some (POut.v (Json.obj l), r)
            | _ => none
        | [] => none
      else if c = '[' then
        match skipWs rest with
        | ']' :: rest2 => some (POut.v (Json.arr []), rest2)
        | d :: rest2 =>
          match parseCore fuel PMode.arrElems (d :: rest2) with
          | some (POut.es l, r) => some (POut.v (Json.arr l), r)
          | _ => none
        | [] => none
      else
        match parseNumberLit (c :: rest) with
        | some (l, r) => some (POut.v (Json.num (String.mk l)), r)
        | none => none
    | [] => none
  | fuel + 1, PMode.objFields, cs =>
    match skipWs cs with
    | '"' :: rest =>
      match parseStrChars rest with
      | some (kl, r1) =>
        match skipWs r1 with
        | ':' :: r2 =>
          match parseCore fuel PMode.val r2 with
          | some (POut.v v, r3) =>
            match skipWs r3 with
            | ',' :: r4 =>
              match parseCore fuel PMode.objFields r4 with
              | some (POut.fs l, r5) => some (POut.fs ((String.mk kl, v) :: l), r5)
              | _ => none
            | d :: r4 =>
              if d = rbrace then some (POut.fs [(String.mk kl, v)], r4) else none
            | [] => none
          | _ => none
        | _ => none
      | none => none
    | _ => none
  | fuel + 1, PMode.arrElems, cs =>
    match parseCore fuel PMode.val cs with
    | some (POut.v v, r1) =>
      match skipWs r1 with
      | ',' :: r2 =>
        match parseCore fuel PMode.arrElems r2 with
        | some (POut.es l, r3) => some (POut.es (v :: l), r3)
        | _ => none
      | ']' :: r2 => some (POut.es [v], r2)
      | _ => none
    | _ => none

/-- `JSON.parse`: parses the whole string as one JSON value (allowing
surrounding whitespace); `none` models a thrown `SyntaxError`. -/
def jsonParse (s : String) : Option Json :=
  match parseCore (2 * (s.length + 1)) PMode.val s.data with
  | some (POut.v v, r) => if skipWs r = [] then some v else none
  | _ => none

/-! ## `cleanJson` (src/geminiService.ts lines 18-25) -/

/-- JavaScript `String.prototype.trim` (over the whitespace alphabet above). -/
def trimString (s : String) : String :=
  String.mk (((s.data.dropWhile isJsWs).reverse.dropWhile isJsWs).reverse)

/-- `replace(/^```json\s*/i, "")`: strip a leading case-insensitive
` ```json ` fence and following whitespace. -/
def stripFenceJson (cs : List Char) : List Char :=
  match cs with
  | a :: b :: c :: j :: s :: o :: n :: rest =>
    if a = backtickChar ∧ b = backtickChar ∧ c = backtickChar ∧
        j.toLower = 'j' ∧ s.toLower = 's' ∧ o.toLower = 'o' ∧ n.toLower = 'n' then
      rest.dropWhile isJsWs
    else cs
  | _ => cs

/-- `replace(/^```\s*/, "")`: strip a leading plain fence and whitespace. -/
def stripFencePlain (cs : List Char) : List Char :=
  match cs with
  | a :: b :: c :: rest =>
    if a = backtickChar ∧ b = backtickChar ∧ c = backtickChar then
      rest.dropWhile isJsWs
    else cs
  | _ => cs

/-- `replace(/\s*```$/, "")`: strip a trailing fence (and the whitespace just
before it), only when the string ends with the fence. -/
def stripFenceEnd (cs : List Char) : List Char :=
  match (cs.reverse).dropWhile isJsWs with
  | a :: b :: c :: rest =>
    if a = backtickChar ∧ b = backtickChar ∧ c = backtickChar then
      rest.reverse
    else cs
  | _ => cs

/-- `cleanJson(text)` from src/geminiService.ts lines 18-25: empty input becomes
the empty-object literal; otherwise trim, strip markdown code fences at both
ends, and trim again. -/
def cleanJson (text : String) : String :=
  if text = "" then String.mk [lbrace, rbrace]
  else
    trimString (String.mk
      (stripFenceEnd (stripFencePlain (stripFenceJson ((trimString text).data)))))

/-- JavaScript `x || d` for an optional string `x`. -/
def jsOrString (t : Option String) (d : String) : String :=
  match t with
  | none => d
  | some s => if s = "" then d else s

/-! ## Recommend-configuration (src/geminiService.ts `generateTrendConfig`) -/

/-- Message of the content-format error thrown on a JSON parse failure
(geminiService.ts line 109). -/
def TREND_FORMAT_ERROR : String := "AI生成格式错误，请重试"

/-- Response handling of `generateTrendConfig` (geminiService.ts lines 105-110):
`JSON.parse(cleanJson(response.text || "{}"))` cast to `NovelConfig` with no
field validation; a parse failure throws the content-format error. `text` is
the provider's response text (`undefined` embedded as `none`). -/
def generateTrendConfigResult (text : Option String) : Except String Json :=
  match jsonParse (cleanJson (jsOrString text (String.mk [lbrace, rbrace]))) with
  | some v => Except.ok v
  | none => Except.error TREND_FORMAT_ERROR

/-- Field lookup on a JSON object. -/
def jsonField (j : Json) (key : String) : Option Json :=
  match j with
  | Json.obj fields => (fields.find? (fun kv => kv.1 == key)).map (fun kv => kv.2)
  | _ => none

/-- The `required` field set of the configuration response schema
(geminiService.ts line 100). -/
def REQUIRED_CONFIG_KEYS : List String :=
  ["title", "genre", "protagonist", "worldSetting", "writingStyle"]

/-- Does a JSON value carry every required configuration field? -/
def satisfiesRequiredKeys (j : Json) : Bool :=
  REQUIRED_CONFIG_KEYS.all (fun k => (jsonField j k).isSome)

/-! ## Generate-unit-batch (src/geminiService.ts `generateChapterBatch`)

Response handling, lines 210-224: parse the cleaned text (defaulting to the
empty-array literal), degrade to `[]` when parsing fails or the value is not an
array, otherwise map each item to a fresh chapter stub. `uuids` supplies the
`crypto.randomUUID()` results. -/

/-- Extract a JSON string value. -/
def jsonAsString : Json → Option String
  | Json.str s => some s
  | _ => none

/-- One mapped batch item (geminiService.ts lines 214-220). -/
def chapterOfBatchItem (uuid : String) (item : Json) : Chapter :=
  { id := uuid,
    title := ((jsonField item ("title")).bind jsonAsString).getD "",
    summary := ((jsonField item ("summary")).bind jsonAsString).getD "",
    content := "",
    isGenerated := false }

/-- The chapter list produced from one successful `generateChapterBatch`
response text. -/
def generateChapterBatchResult (uuids : Nat → String) (text : Option String) :
    List Chapter :=
  match jsonParse (cleanJson (jsOrString text ("[]"))) with
  | some (Json.arr items) => items.mapIdx (fun i item => chapterOfBatchItem (uuids i) item)
  | some _ => []
  | none => []

/-! ## Planning-batch loop (src/components/OutlineView.tsx
`handleGenerateChapters`)

`batchResult s k` is the outcome of one (retry-wrapped) `generateChapterBatch`
call at start position `s` requesting `k` chapters; `Except.error` models a
throw after retry exhaustion. The loop is fuel-indexed: `none` means it has not
terminated within `fuel` iterations. The Bool in the result records whether the
loop halted through the catch block (partial commit). -/

/-- `BATCH_SIZE` constant (OutlineView.tsx line 31). -/
def BATCH_SIZE : Nat := 20

/-- The `while (allChapters.length < target)` loop of `handleGenerateChapters`
(OutlineView.tsx lines 35-53). -/
def planLoop (batchResult : Nat → Nat → Except AiError (List Chapter))
    (target : Nat) : Nat → List Chapter → Option (List Chapter × Bool)
  | 0, _ => none
  | fuel + 1, acc =>
    if acc.length < target then
      match batchResult acc.length (min BATCH_SIZE (target - acc.length)) with
      | Except.error _ => some (acc, true)
      | Except.ok newBatch => planLoop batchResult target fuel (acc ++ newBatch)
    else some (acc, false)

/-- One successful iteration of the planning loop: the guard holds and the
batch call succeeds; returns the new accumulator. -/
def planStep (batchResult : Nat → Nat → Except AiError (List Chapter))
    (target : Nat) (acc : List Chapter) : Option (List Chapter) :=
  if acc.length < target then
    match batchResult acc.length (min BATCH_SIZE (target - acc.length)) with
    | Except.ok newBatch => some (acc ++ newBatch)
    | Except.error _ => none
  else none

/-- The planning loop never finishes, for any iteration bound. -/
def PlanLoopDiverging (batchResult : Nat → Nat → Except AiError (List Chapter))
    (target : Nat) : Prop :=
  ∀ fuel : Nat, planLoop batchResult target fuel [] = none

/-- Identity oracle for batch ids. -/
def c2uuids : Nat → String := fun i => "id-" ++ toString i

/-- A provider whose every batch response is unparseable text, which
`generateChapterBatch` degrades to the empty list. -/
def c2badBatch : Nat → Nat → Except AiError (List Chapter) :=
  fun _ _ => Except.ok (generateChapterBatchResult c2uuids (some ("oops")))

/-- A provider that returns exactly the requested number of chapter stubs. -/
def c2goodBatch : Nat → Nat → Except AiError (List Chapter) :=
  fun _ k => Except.ok (List.replicate k
    { id := "w", title := "t", summary := "s", content := "", isGenerated := false })

/-! ## Persistence collaborator (src/fileSystemService.ts)

The File System Access API primitives are embedded as an environment of
outcome oracles keyed by path strings; `Except.error` models a rejected
promise. `hasRoot` models `rootDirectoryHandle !== null`. -/

/-- Outcomes of the external file-system primitives. -/
structure FsEnv where
  hasRoot : Bool
  getDirHandle : String → Except String Unit
  getFileHandle : String → Except String Unit
  createWritable : String → Except String Unit
  writeData : String → String → Except String Unit
  closeHandle : String → Except String Unit

/-- Characters kept by the directory-name sanitiser
(`/[^a-z0-9一-龥-_]/gi`, fileSystemService.ts line 73). -/
def isAllowedDirChar (c : Char) : Bool :=
  (97 ≤ c.toNat && c.toNat ≤ 122) || (65 ≤ c.toNat && c.toNat ≤ 90) ||
  (48 ≤ c.toNat && c.toNat ≤ 57) ||
  (0x4e00 ≤ c.toNat && c.toNat ≤ 0x9fa5) || c == '-' || c == '_'

/-- `novelTitle.replace(/[^a-z0-9一-龥-_]/gi, '_') || 'Untitled_Novel'`. -/
def safeNovelTitle (t : String) : String :=
  let r := String.mk (t.data.map (fun c => if isAllowedDirChar c then c else '_'))
  if r = "" then "Untitled_Novel" else r

/-- Characters replaced by the chapter filename sanitiser
(`/[\\/:*?"<>|]/g`, fileSystemService.ts line 123). -/
def isForbiddenFileChar (c : Char) : Bool :=
  c == '\\' || c == '/' || c == ':' || c == '*' || c == '?' || c == '"' ||
  c == '<' || c == '>' || c == '|'

/-- `(chapter.title || 'Untitled').replace(/[\\/:*?"<>|]/g, '_').slice(0, 50)`. -/
def safeChapterTitle (t : String) : String :=
  let base := if t = "" then "Untitled" else t
  String.mk ((base.data.map (fun c => if isForbiddenFileChar c then '_' else c)).take 50)

/-- `String(n).padStart(4, '0')`. -/
def padStart4 (n : Nat) : String :=
  let s := toString n
  String.mk (List.replicate (4 - s.length) '0') ++ s

/-- One escaped character of a `JSON.stringify` string. -/
def escapeJsonChar (c : Char) : List Char :=
  if c = '"' then ['\\', '"']
  else if c = '\\' then ['\\', '\\']
  else if c = '\n' then ['\\', 'n']
  else if c = '\t' then ['\\', 't']
  else if c = '\r' then ['\\', 'r']
  else [c]

/-- A `JSON.stringify` quoted string. -/
def quoteJson (s : String) : String :=
  "\"" ++ String.mk ((s.data.map escapeJsonChar).flatten) ++ "\""

/-- `JSON.stringify(novel.config, null, 2)` with the pretty-printing whitespace
omitted: the flat configuration object serialised field by field. -/
def stringifyConfig (c : NovelConfig) : String :=
  String.mk [lbrace] ++
  quoteJson ("title") ++ ":" ++ quoteJson c.title ++ "," ++
  quoteJson ("genre") ++ ":" ++ quoteJson c.genre ++ "," ++
  quoteJson ("tone") ++ ":" ++ quoteJson c.tone ++ "," ++
  quoteJson ("protagonist") ++ ":" ++ quoteJson c.protagonist ++ "," ++
  quoteJson ("worldSetting") ++ ":" ++ quoteJson c.worldSetting ++ "," ++
  quoteJson ("writingStyle") ++ ":" ++ quoteJson c.writingStyle ++ "," ++
  quoteJson ("targetChapterCount") ++ ":" ++ toString c.targetChapterCount ++ "," ++
  quoteJson ("targetWordCount") ++ ":" ++ toString c.targetWordCount ++ "," ++
  quoteJson ("additionalNotes") ++ ":" ++ quoteJson c.additionalNotes ++
  String.mk [rbrace]

/-- The `catch (e) { console.error(...) }` wrapper: a failure of the body is
swallowed (logged only), so the caller always observes success. -/
def tryCatchLog (x : Except String Unit) : Except String Unit :=
  match x with
  | Except.ok _ => Except.ok ()
  | Except.error _ => Except.ok ()

/-- `getNovelDirectory(novelTitle)` (fileSystemService.ts lines 70-80): `null`
without a root handle or when the directory request rejects (caught inside). -/
def getNovelDirectory (env : FsEnv) (novelTitle : String) : Option String :=
  if env.hasRoot = false then none
  else
    match env.getDirHandle (safeNovelTitle novelTitle) with
    | Except.ok _ => some (safeNovelTitle novelTitle)
    | Except.error _ => none

/-- Body of `saveNovelConfig` (fileSystemService.ts lines 82-95) before the
catch: writes `setting.json` inside the novel directory. -/
def saveNovelConfigBody (env : FsEnv) (novel : Novel) : Except String Unit :=
  match getNovelDirectory env novel.config.title with
  | none => Except.ok ()
  | some dir => do
    let _ ← env.getFileHandle (dir ++ "/setting.json")
    let _ ← env.createWritable (dir ++ "/setting.json")
    let _ ← env.writeData (dir ++ "/setting.json") (stringifyConfig novel.config)
    let _ ← env.closeHandle (dir ++ "/setting.json")
    pure ()

/-- `saveNovelConfig(novel)`: early return without a root handle, otherwise the
body under try/catch. -/
def saveNovelConfig (env : FsEnv) (novel : Novel) : Except String Unit :=
  if env.hasRoot = false then Except.ok ()
  else tryCatchLog (saveNovelConfigBody env novel)

/-- Body of `saveOutline` (fileSystemService.ts lines 97-110). -/
def saveOutlineBody (env : FsEnv) (novel : Novel) : Except String Unit :=
  match getNovelDirectory env novel.config.title with
  | none => Except.ok ()
  | some dir => do
    let _ ← env.getFileHandle (dir ++ "/outline.txt")
    let _ ← env.createWritable (dir ++ "/outline.txt")
    let _ ← env.writeData (dir ++ "/outline.txt") novel.outline
    let _ ← env.closeHandle (dir ++ "/outline.txt")
    pure ()

/-- `saveOutline(novel)`. -/
def saveOutline (env : FsEnv) (novel : Novel) : Except String Unit :=
  if env.hasRoot = false then Except.ok ()
  else tryCatchLog (saveOutlineBody env novel)

/-- Body of `saveChapter` (fileSystemService.ts lines 112-135): writes
`chapters/NNNN_Title.txt` with the numbered-heading content. -/
def saveChapterBody (env : FsEnv) (novel : Novel) (chapter : Chapter)
    (index : Nat) : Except String Unit :=
  match getNovelDirectory env novel.config.title with
  | none => Except.ok ()
  | some dir => do
    let _ ← env.getDirHandle (dir ++ "/chapters")
    let filename := padStart4 (index + 1) ++ "_" ++ safeChapterTitle chapter.title ++ ".txt"
    let _ ← env.getFileHandle (dir ++ "/chapters/" ++ filename)
    let _ ← env.createWritable (dir ++ "/chapters/" ++ filename)
    let content := "第" ++ toString (index + 1) ++ "章：" ++ chapter.title ++
      "\n\n" ++ chapter.content
    let _ ← env.writeData (dir ++ "/chapters/" ++ filename) content
    let _ ← env.closeHandle (dir ++ "/chapters/" ++ filename)
    pure ()

/-- `saveChapter(novel, chapter, index)`. -/
def saveChapter (env : FsEnv) (novel : Novel) (chapter : Chapter)
    (index : Nat) : Except String Unit :=
  if env.hasRoot = false then Except.ok ()
  else tryCatchLog (saveChapterBody env novel chapter index)

/-- The for loop of `saveAllChapters` (fileSystemService.ts lines 140-145):
saves every chapter with non-blank content. -/
def saveAllChaptersLoop (env : FsEnv) (novel : Novel) :
    Nat → List Chapter → Except String Unit
  | _, [] => Except.ok ()
  | i, c :: rest => do
    let _ ← if (trimString c.content).length > 0 then saveChapter env novel c i
            else Except.ok ()
    saveAllChaptersLoop env novel (i + 1) rest

/-- `saveAllChapters(novel)`. -/
def saveAllChapters (env : FsEnv) (novel : Novel) : Except String Unit :=
  if env.hasRoot = false then Except.ok ()
  else tryCatchLog (saveAllChaptersLoop env novel 0 novel.chapters)

/-! ## Continuation run ("streak write",
src/components/WriterInterface.tsx `handleBatchGenerate`) -/

/-- The persistence dependencies visible to the run: the file-system
environment, the `isFileSystemReady` flag, and the captured active novel
(App.tsx lines 213-217). -/
structure PersistCtx where
  env : FsEnv
  fsReady : Bool
  activeNovel : Option Novel

/-- `saveChapterData(chapter, index)` closure passed down from App.tsx: saves
only when the file system is ready and a novel is active. -/
def saveChapterData (pc : PersistCtx) (chapter : Chapter) (index : Nat) :
    Except String Unit :=
  match pc.fsReady, pc.activeNovel with
  | true, some novel => saveChapter pc.env novel chapter index
  | _, _ => Except.ok ()

/-- Run length of a continuation run (`chaptersToGenCount`,
WriterInterface.tsx line 103). -/
def CHAPTERS_TO_GEN : Nat := 10

/-- How a continuation run halted. -/
inductive RunHalt where
  | finished
  | reachedEnd
  | userAbort
  | callError
deriving DecidableEq, Repr

/-- Observable outcome of a continuation run: the final chapter list (published
to App state), the number of fully completed units, the last reported progress
(`batchProgress.current`), and the halt reason. -/
structure RunState where
  chapters : List Chapter
  completed : Nat
  lastProgress : Nat
  halt : RunHalt
deriving Repr

/-- The `for (let i = 0; i < chaptersToGenCount; i++)` loop of
`handleBatchGenerate` (WriterInterface.tsx lines 129-171). `res i` is the
outcome of the (retry-wrapped) `generateChapterContent` call of iteration `i`
(`Except.error` = throw after retry exhaustion; `Option String` = the
provider's `response.text`), and `abort i` is the value of `abortBatchRef`
observed at the check opening iteration `i`. The remaining iteration count is
the structural fuel. -/
def runBatchAux (pc : PersistCtx) (res : Nat → Except AiError (Option String))
    (abort : Nat → Bool) (startIndex : Nat) :
    Nat → Nat → List Chapter → Nat → RunState
  | i, 0, lc, prog => ⟨lc, i, prog, RunHalt.finished⟩
  | i, r + 1, lc, prog =>
    if abort i = true then ⟨lc, i, prog, RunHalt.userAbort⟩
    else
      match lc[startIndex + i]? with
      | none => ⟨lc, i, prog, RunHalt.reachedEnd⟩
      | some target =>
        match res i with
        | Except.error _ => ⟨lc, i, i + 1, RunHalt.callError⟩
        | Except.ok t =>
          let updated : Chapter :=
            { target with content := chapterContentOfText t, isGenerated := true }
          let lc2 := lc.set (startIndex + i) updated
          match saveChapterData pc updated (startIndex + i) with
          | Except.error _ => ⟨lc2, i + 1, i + 1, RunHalt.callError⟩
          | Except.ok _ => runBatchAux pc res abort startIndex (i + 1) r lc2 (i + 1)

/-- The `while (startIndex < chapters.length && chapters[startIndex].content.length > 500)`
scan (WriterInterface.tsx lines 111-114), over the suffix from `i`. -/
def advanceStartAux : List Chapter → Nat → Nat
  | [], i => i
  | c :: rest, i => if c.content.length > 500 then advanceStartAux rest (i + 1) else i

/-- The start-position scan from position `i` of the chapter list. -/
def advanceStart (chapters : List Chapter) (i : Nat) : Nat :=
  advanceStartAux (chapters.drop i) i

/-- Start-index determination of `handleBatchGenerate` (WriterInterface.tsx
lines 105-114): the selected chapter's index (0 when not found), advanced past
every chapter whose body exceeds 500 characters. -/
def computeStartIndex (chapters : List Chapter) (activeChapterId : Option String) : Nat :=
  let currentIdx :=
    match activeChapterId with
    | none => 0
    | some id =>
      match chapters.findIdx? (fun c => c.id == id) with
      | some k => k
      | none => 0
  advanceStart chapters currentIdx

/-- `handleBatchGenerate` (WriterInterface.tsx lines 94-183): refuses to run on
an empty chapter list or when every chapter from the start position on is
already substantially written (the two alert-and-return paths); otherwise runs
the loop for `CHAPTERS_TO_GEN` iterations from the computed start index. -/
def handleBatchGenerate (pc : PersistCtx) (res : Nat → Except AiError (Option String))
    (abort : Nat → Bool) (chapters : List Chapter)
    (activeChapterId : Option String) : Option RunState :=
  if chapters.length = 0 then none
  else
    let startIndex := computeStartIndex chapters activeChapterId
    if chapters.length ≤ startIndex then none
    else some (runBatchAux pc res abort startIndex 0 CHAPTERS_TO_GEN chapters 0)

/-- A no-failure file-system environment (used only to build concrete
persistence contexts for witnesses). -/
def fsEnvDemo : FsEnv :=
  { hasRoot := false,
    getDirHandle := fun _ => Except.ok (),
    getFileHandle := fun _ => Except.ok (),
    createWritable := fun _ => Except.ok (),
    writeData := fun _ _ => Except.ok (),
    closeHandle := fun _ => Except.ok () }

/-- A persistence context with no directory connected. -/
def pcDemo : PersistCtx := { env := fsEnvDemo, fsReady := false, activeNovel := none }

/-- A provider that always succeeds with a fixed body text. -/
def resDemo : Nat → Except AiError (Option String) :=
  fun _ => Except.ok (some ("本章正文内容。"))

/-- An abort flag that is never raised. -/
def noAbort : Nat → Bool := fun _ => false

/-- Two unwritten chapters for the C5 witness. -/
def c5chapters : List Chapter :=
  [{ id := "u1", title := "第一章", summary := "开端", content := "", isGenerated := false },
   { id := "u2", title := "第二章", summary := "发展", content := "", isGenerated := false }]

/-- Three unwritten chapters for the C6 witness. -/
def c6chapters : List Chapter :=
  [{ id := "v1", title := "第一章", summary := "起", content := "", isGenerated := false },
   { id := "v2", title := "第二章", summary := "承", content := "", isGenerated := false },
   { id := "v3", title := "第三章", summary := "转", content := "", isGenerated := false }]

/-- An abort flag first observed raised at check 1 (after one unit completed). -/
def abortAfter1 : Nat → Bool := fun i => decide (1 ≤ i)

/-- A chapter whose body is exactly 500 characters long (not below the
threshold, yet not skipped by the scan). -/
def c7c500 : Chapter :=
  { id := "e0", title := "边界", summary := "边界章",
    content := String.mk (List.replicate 500 'x'), isGenerated := true }

/-- The 5-chapter sequence of the C7 scenario: positions 0-2 substantially
written (501 characters), positions 3-4 unwritten. -/
def c7chapters : List Chapter :=
  [{ id := "k0", title := "第一章", summary := "s0",
     content := String.mk (List.replicate 501 'a'), isGenerated := true },
   { id := "k1", title := "第二章", summary := "s1",
     content := String.mk (List.replicate 501 'b'), isGenerated := true },
   { id := "k2", title := "第三章", summary := "s2",
     content := String.mk (List.replicate 501 'c'), isGenerated := true },
   { id := "k3", title := "第四章", summary := "s3", content := "", isGenerated := false },
   { id := "k4", title := "第五章", summary := "s4", content := "", isGenerated := false }]

/-! ## Theorems for C1 (Retry Policy) -/

/-- C1: with the default budget (3) and base delay (2000), an operation failing
twice with a transient signature and succeeding on the third attempt returns the
success value after exactly 3 invocations with delays 2000 then 4000 (doubling
from the base); an operation failing once with a non-transient signature is
invoked exactly once, with no delay, and the failure propagates unchanged;
every transient failure with budget remaining causes one wait of the current
base delay and a retry with the budget decremented and the delay doubled; and
in any run the recorded waits are exactly `baseDelay * 2 ^ attemptsUsed`. -/
theorem retry_policy_c1 {T : Type} (op : Nat → Except AiError T) :
    (∀ (e₀ e₁ : AiError) (v : T),
      op 0 = Except.error e₀ → isTransientError e₀ = true →
      op 1 = Except.error e₁ → isTransientError e₁ = true →
      op 2 = Except.ok v →
      callAIWithRetry op 0 3 2000 = ⟨Except.ok v, [2000, 4000], 3⟩) ∧
    (∀ e : AiError,
      op 0 = Except.error e → isTransientError e = false →
      callAIWithRetry op 0 3 2000 = ⟨Except.error e, [], 1⟩) ∧
    (∀ (attempt r b : Nat) (e : AiError),
      op attempt = Except.error e → isTransientError e = true →
      callAIWithRetry op attempt (r + 1) b =
        ⟨(callAIWithRetry op (attempt + 1) r (b * 2)).result,
         b :: (callAIWithRetry op (attempt + 1) r (b * 2)).delays,
         (callAIWithRetry op (attempt + 1) r (b * 2)).calls + 1⟩) ∧
    (∀ attempt retries b : Nat, ∃ n : Nat,
      (callAIWithRetry op attempt retries b).delays =
        (List.range n).map (fun j => b * 2 ^ j)) := by
  refine ⟨?_, ?_, ?_, ?_⟩
  · intro e₀ e₁ v h₀ ht₀ h₁ ht₁ h₂
    simp only [callAIWithRetry, h₀, h₁, h₂, ht₀, ht₁, if_true]
  · intro e h₀ ht₀
    simp only [callAIWithRetry, h₀, ht₀, if_false, Bool.false_eq_true]
  · intro attempt r b e h ht
    simp only [callAIWithRetry, h, ht, if_true]
  · intro attempt retries b
    induction retries generalizing attempt b with
    | zero =>
      refine ⟨0, ?_⟩
      cases h : op attempt <;> simp [callAIWithRetry, h]
    | succ r ih =>
      cases h : op attempt with
      | ok v => exact ⟨0, by simp [callAIWithRetry, h]⟩
      | error e =>
        by_cases ht : isTransientError e = true
        · obtain ⟨n, hn⟩ := ih (attempt + 1) (b * 2)
          refine ⟨n + 1, ?_⟩
          simp only [callAIWithRetry, h, ht, if_true, hn]
          rw [List.range_succ_eq_map]
          simp only [List.map_cons, List.map_map, pow_zero, mul_one]
          congr 1
          apply List.map_congr_left
          intro j _
          simp only [Function.comp_apply, pow_succ]
          ring
        · refine ⟨0, ?_⟩
          simp only [callAIWithRetry, h]
          rw [if_neg ht]
          simp

/-- C1 witness: the retry theorem applied to the concrete operation
`retryDemoOp` (503 failure, then "overloaded" failure, then success 42). -/
theorem retry_policy_c1_witness :
    callAIWithRetry retryDemoOp 0 3 2000 = ⟨Except.ok 42, [2000, 4000], 3⟩ :=
  (retry_policy_c1 retryDemoOp).1 ⟨some 503, none⟩
    ⟨none, some ("model is overloaded, try later")⟩ 42
    rfl (by decide) rfl (by decide) rfl

/-! ## Theorems for C4 (Context Window Builder) -/

/-- C4 counterexample: the claim says the context for a position `i > 0` whose
predecessor body has length ≥ 50 is *exactly* the last 3000 characters of that
body; the code (WriterInterface.tsx line 56) prefixes that slice with the
marker `【上章正文结尾】：\n...`, so for a 50-character predecessor body the
context differs from the bare trailing slice. -/
theorem context_window_c4_counterexample :
    getContext c4chB [c4chA, c4chB] ≠ takeLastChars c4chA.content 3000 := by
  decide

/-- C4 amended: `getContext` is a pure function of the chapter sequence; at
position 0 it yields the fixed no-prior-context marker; at position `i + 1`
with predecessor body length ≥ 50 it yields the last 3000 characters of that
body (a suffix of length `min 3000 (body length)`) prefixed with the body-tail
marker; with predecessor body absent or shorter than 50 characters it yields
the predecessor's synopsis prefixed with its marker. -/
theorem context_window_c4_amended (ch : Chapter) (chs : List Chapter) :
    (chs.findIdx? (fun c => c.id == ch.id) = some 0 →
      getContext ch chs = NO_PRIOR_CONTEXT) ∧
    (∀ (i : Nat) (prev : Chapter),
      chs.findIdx? (fun c => c.id == ch.id) = some (i + 1) →
      chs[i]? = some prev →
      (50 ≤ prev.content.length →
        getContext ch chs = BODY_TAIL_MARKER ++ takeLastChars prev.content 3000 ∧
        (takeLastChars prev.content 3000).length = min 3000 prev.content.length ∧
        ∃ pre : List Char,
          prev.content.data = pre ++ (takeLastChars prev.content 3000).data) ∧
      (prev.content.length < 50 →
        getContext ch chs = SUMMARY_MARKER ++ prev.summary)) := by
  constructor
  · intro h
    simp [getContext, h]
  · intro i prev hidx hprev
    constructor
    · intro hlen
      refine ⟨?_, ?_, ?_⟩
      · simp [getContext, hidx, hprev, Nat.not_lt.mpr hlen]
      · obtain ⟨l⟩ := prev.content
        show (String.mk (l.drop (l.length - 3000))).length = _
        show (l.drop (l.length - 3000)).length = min 3000 l.length
        rw [List.length_drop]
        omega
      · exact ⟨prev.content.data.take (prev.content.length - 3000), by
          simp only [takeLastChars]
          exact (List.take_append_drop _ _).symm⟩
    · intro hlen
      simp [getContext, hidx, hprev, hlen]

/-- C4 witness: the amended theorem applied at the concrete two-chapter
sequence `[c4chA, c4chB]` with a 50-character predecessor body. -/
theorem context_window_c4_witness :
    getContext c4chB [c4chA, c4chB] =
      BODY_TAIL_MARKER ++ takeLastChars c4chA.content 3000 :=
  (((context_window_c4_amended c4chB [c4chA, c4chB]).2 0 c4chA
    (by decide) (by decide)).1 (by decide)).1

/-- The chapter content can never be the empty string. -/
theorem chapterContentOfText_ne_empty (t : Option String) :
    chapterContentOfText t ≠ "" := by
  cases t with
  | none => decide
  | some s =>
    by_cases h : s = ""
    · simp only [chapterContentOfText, h, if_true]
      decide
    · simp only [chapterContentOfText, h, if_false]
      exact h

/-! ## Theorems for C8 (empty output surfaced as distinct result) -/

/-- C8: when the first provider call succeeds but carries no text (absent or
empty), `generateChapterContent` succeeds (does not fail) with the fixed
non-empty "empty result" marker; a non-empty provider text is returned
verbatim, so any non-empty output other than the marker itself yields a result
distinct from the empty-output result. -/
theorem empty_output_c8 (providerCalls : Nat → Except AiError (Option String)) :
    (∀ t : Option String,
      providerCalls 0 = Except.ok t → (t = none ∨ t = some "") →
      (generateChapterContent providerCalls).result = Except.ok EMPTY_CONTENT_MARK) ∧
    EMPTY_CONTENT_MARK ≠ "" ∧
    (∀ s : String,
      providerCalls 0 = Except.ok (some s) → s ≠ "" →
      (generateChapterContent providerCalls).result = Except.ok s) ∧
    (∀ s : String,
      providerCalls 0 = Except.ok (some s) → s ≠ "" → s ≠ EMPTY_CONTENT_MARK →
      (generateChapterContent providerCalls).result ≠ Except.ok EMPTY_CONTENT_MARK) := by
  refine ⟨?_, by decide, ?_, ?_⟩
  · intro t h0 ht
    have hmk : chapterContentOfText t = EMPTY_CONTENT_MARK := by
      rcases ht with h | h <;> simp [h, chapterContentOfText]
    simp [generateChapterContent, callAIWithRetry, h0, Except.map, hmk]
  · intro s h0 hs
    simp [generateChapterContent, callAIWithRetry, h0, Except.map,
      chapterContentOfText, hs]
  · intro s h0 hs hm
    simp [generateChapterContent, callAIWithRetry, h0, Except.map,
      chapterContentOfText, hs]
    exact fun h => hm h

/-- C8 witness: the theorem applied to a provider that succeeds with no text. -/
theorem empty_output_c8_witness :
    (generateChapterContent (fun _ => Except.ok none)).result =
      Except.ok EMPTY_CONTENT_MARK :=
  (empty_output_c8 (fun _ => Except.ok none)).1 none rfl (Or.inl rfl)

/-! ## Theorems for C10 (persisted copy converges after mutations) -/

/-- C10 counterexample: deleting the last remaining document empties the
in-memory collection, but the persistence effect writes only when the
collection is non-empty, so the stored copy keeps the deleted document and
never converges to the (empty) in-memory collection. -/
theorem persist_c10_counterexample :
    (handleDeleteNovel [c10novel] (some ("n1")) ("n1")).1 = [] ∧
    persistLibraryEffect
        (handleDeleteNovel [c10novel] (some ("n1")) ("n1")).1
        (some [c10novel]) = some [c10novel] ∧
    some [c10novel] ≠ some ([] : List Novel) := by
  refine ⟨by decide, by decide, by decide⟩

/-- C10 amended: after a mutation settles, the persisted copy equals the
in-memory collection whenever that collection is non-empty; a mutation that
empties the collection (deleting the last remaining document) leaves the
persisted copy unchanged at its previous value, so it does not converge in
that case. -/
theorem persist_c10_amended (novels : List Novel) (stored : Option (List Novel)) :
    (novels ≠ [] → persistLibraryEffect novels stored = some novels) ∧
    persistLibraryEffect [] stored = stored := by
  constructor
  · intro h
    have : 0 < novels.length := List.length_pos.mpr h
    simp [persistLibraryEffect, this]
  · simp [persistLibraryEffect]

/-- C10 witness: the amended theorem applied to a singleton library. -/
theorem persist_c10_witness :
    persistLibraryEffect [c10novel] none = some [c10novel] :=
  (persist_c10_amended [c10novel] none).1 (by decide)

/-! ## Theorems for C3 (recommend-configuration validation) -/

/-- C3 counterexample: a provider response with no text is defaulted to the
empty-object literal, parsed successfully, and returned as a configuration with
none of the required fields — silently, with no content-format error. -/
theorem trend_config_c3_counterexample :
    generateTrendConfigResult none = Except.ok (Json.obj []) ∧
    satisfiesRequiredKeys (Json.obj []) = false ∧
    generateTrendConfigResult none ≠ Except.error TREND_FORMAT_ERROR := by
  refine ⟨rfl, rfl, ?_⟩
  intro h
  exact Except.noConfusion h

/-- C3 amended: `generateTrendConfigResult` raises the content-format error
exactly when the cleaned response text fails to parse as JSON; any JSON value
that parses — of any shape, with no required-field validation — is returned
as-is; in particular an empty provider response yields the empty object, which
satisfies none of the required configuration fields. -/
theorem trend_config_c3_amended (text : Option String) :
    (∀ v : Json,
      jsonParse (cleanJson (jsOrString text (String.mk [lbrace, rbrace]))) = some v →
      generateTrendConfigResult text = Except.ok v) ∧
    (jsonParse (cleanJson (jsOrString text (String.mk [lbrace, rbrace]))) = none →
      generateTrendConfigResult text = Except.error TREND_FORMAT_ERROR) ∧
    (text = none →
      generateTrendConfigResult text = Except.ok (Json.obj []) ∧
      satisfiesRequiredKeys (Json.obj []) = false) := by
  refine ⟨?_, ?_, ?_⟩
  · intro v h
    simp [generateTrendConfigResult, h]
  · intro h
    simp [generateTrendConfigResult, h]
  · intro h
    subst h
    exact ⟨rfl, rfl⟩

/-- C3 witness: the amended theorem applied to a response whose text is a JSON
array — not an object at all — which is still returned without error. -/
theorem trend_config_c3_witness :
    generateTrendConfigResult (some ("[1,2]")) =
      Except.ok (Json.arr [Json.num ("1"), Json.num ("2")]) :=
  (trend_config_c3_amended (some ("[1,2]"))).1
    (Json.arr [Json.num ("1"), Json.num ("2")]) rfl

/-- A successful iteration continues the loop with the new accumulator. -/
theorem planLoop_step (batchResult : Nat → Nat → Except AiError (List Chapter))
    (target fuel : Nat) (acc acc2 : List Chapter)
    (h : planStep batchResult target acc = some acc2) :
    planLoop batchResult target (fuel + 1) acc = planLoop batchResult target fuel acc2 := by
  by_cases hlt : acc.length < target
  · cases hbr : batchResult acc.length (min BATCH_SIZE (target - acc.length)) with
    | ok nb =>
      simp only [planStep, hlt, if_true, hbr, Option.some.injEq] at h
      subst h
      simp [planLoop, hlt, hbr]
    | error e => simp [planStep, hlt, hbr] at h
  · simp [planStep, hlt] at h

/-- Under batches that are non-empty and at most the requested size, the loop
reaches exactly the target count (given fuel above the target). -/
theorem planLoop_progress (batchResult : Nat → Nat → Except AiError (List Chapter))
    (target : Nat)
    (hB : ∀ s k, 1 ≤ k → ∃ l, batchResult s k = Except.ok l ∧
      1 ≤ l.length ∧ l.length ≤ k) :
    ∀ (fuel : Nat) (acc : List Chapter), acc.length ≤ target →
      target - acc.length < fuel →
      ∃ final : List Chapter,
        planLoop batchResult target fuel acc = some (final, false) ∧
        final.length = target := by
  intro fuel
  induction fuel with
  | zero => intro acc h1 h2; omega
  | succ n ih =>
    intro acc h1 h2
    by_cases hlt : acc.length < target
    · have hk : 1 ≤ min BATCH_SIZE (target - acc.length) := by
        show 1 ≤ min 20 (target - acc.length)
        omega
      obtain ⟨l, hbr, hl1, hl2⟩ := hB acc.length (min BATCH_SIZE (target - acc.length)) hk
      have hle : min BATCH_SIZE (target - acc.length) ≤ target - acc.length :=
        Nat.min_le_right _ _
      have h3 : (acc ++ l).length ≤ target := by
        simp only [List.length_append]
        omega
      have h4 : target - (acc ++ l).length < n := by
        simp only [List.length_append]
        omega
      obtain ⟨final, hfin, hlen⟩ := ih (acc ++ l) h3 h4
      refine ⟨final, ?_, hlen⟩
      simp only [planLoop, hlt, if_true, hbr]
      exact hfin
    · have heq : acc.length = target := by omega
      exact ⟨acc, by simp [planLoop, hlt], heq⟩

/-! ## Theorems for C2 (planning-loop termination and bounds) -/

/-- C2 counterexample: a content-format failure makes `generateChapterBatch`
return the empty list as a *successful* call; the planning loop then performs a
successful iteration on which the accumulated count does not increase (it stays
0), and with such responses the loop never terminates — for target 25 and batch
size 20 (25 is not a multiple of 20) no iteration bound suffices. -/
theorem planning_loop_c2_counterexample :
    generateChapterBatchResult c2uuids (some ("oops")) = [] ∧
    planStep c2badBatch 25 [] = some [] ∧
    PlanLoopDiverging c2badBatch 25 := by
  refine ⟨rfl, rfl, ?_⟩
  intro fuel
  induction fuel with
  | zero => rfl
  | succ n ih =>
    have hb : c2badBatch 0 (min BATCH_SIZE 25) = Except.ok ([] : List Chapter) := rfl
    calc planLoop c2badBatch 25 (n + 1) []
        = planLoop c2badBatch 25 n [] :=
          planLoop_step c2badBatch 25 n [] [] rfl
      _ = none := ih

/-- C2 amended: the accumulated unit count strictly increases on a successful
iteration only when the batch call returns a non-empty list; a batch call may
successfully return an empty list (content-format degradation), in which case
the count stays put and the loop never terminates. Provided every batch call
returns between 1 and the requested number of units, every successful iteration
strictly increases the count and the loop terminates with exactly T accumulated
units — hence at least T, and exceeding T by no more than B−1. -/
theorem planning_loop_c2_amended
    (batchResult : Nat → Nat → Except AiError (List Chapter)) (target fuel : Nat)
    (hB : ∀ s k, 1 ≤ k → ∃ l, batchResult s k = Except.ok l ∧
      1 ≤ l.length ∧ l.length ≤ k)
    (hfuel : target < fuel) :
    (∀ acc acc2 : List Chapter,
      planStep batchResult target acc = some acc2 → acc.length < acc2.length) ∧
    ∃ final : List Chapter,
      planLoop batchResult target fuel [] = some (final, false) ∧
      final.length = target := by
  constructor
  · intro acc acc2 h
    by_cases hlt : acc.length < target
    · have hk : 1 ≤ min BATCH_SIZE (target - acc.length) := by
        show 1 ≤ min 20 (target - acc.length)
        omega
      obtain ⟨l, hbr, hl1, _⟩ := hB acc.length (min BATCH_SIZE (target - acc.length)) hk
      simp only [planStep, hlt, if_true, hbr, Option.some.injEq] at h
      subst h
      simp only [List.length_append]
      omega
    · simp [planStep, hlt] at h
  · exact planLoop_progress batchResult target hB fuel [] (by simp) (by simpa using hfuel)

/-- C2 witness: the amended theorem applied to a well-behaved provider at
target 25 (not a multiple of the batch size 20) with fuel 26. -/
theorem planning_loop_c2_witness :
    ∃ final : List Chapter,
      planLoop c2goodBatch 25 26 [] = some (final, false) ∧ final.length = 25 :=
  (planning_loop_c2_amended c2goodBatch 25 26
    (fun _ k hk => ⟨List.replicate k
      { id := "w", title := "t", summary := "s", content := "", isGenerated := false },
      rfl, by simpa using hk, by simp⟩)
    (by omega)).2

/-! ## Theorems for C9 (persistence failures are isolated) -/

/-- The catch wrapper always yields success. -/
theorem tryCatchLog_ok (x : Except String Unit) : tryCatchLog x = Except.ok () := by
  cases x with
  | ok a => rfl
  | error e => rfl

/-- `saveNovelConfig` never surfaces a failure. -/
theorem saveNovelConfig_ok (env : FsEnv) (novel : Novel) :
    saveNovelConfig env novel = Except.ok () := by
  unfold saveNovelConfig
  cases hr : env.hasRoot <;> simp [tryCatchLog_ok]

/-- `saveOutline` never surfaces a failure. -/
theorem saveOutline_ok (env : FsEnv) (novel : Novel) :
    saveOutline env novel = Except.ok () := by
  unfold saveOutline
  cases hr : env.hasRoot <;> simp [tryCatchLog_ok]

/-- `saveChapter` never surfaces a failure. -/
theorem saveChapter_ok (env : FsEnv) (novel : Novel) (chapter : Chapter)
    (index : Nat) : saveChapter env novel chapter index = Except.ok () := by
  unfold saveChapter
  cases hr : env.hasRoot <;> simp [tryCatchLog_ok]

/-- `saveAllChapters` never surfaces a failure. -/
theorem saveAllChapters_ok (env : FsEnv) (novel : Novel) :
    saveAllChapters env novel = Except.ok () := by
  unfold saveAllChapters
  cases hr : env.hasRoot <;> simp [tryCatchLog_ok]

/-- The `saveChapterData` closure never surfaces a failure. -/
theorem saveChapterData_ok (pc : PersistCtx) (chapter : Chapter) (index : Nat) :
    saveChapterData pc chapter index = Except.ok () := by
  unfold saveChapterData
  cases hf : pc.fsReady <;> cases hn : pc.activeNovel <;> simp [saveChapter_ok]

/-- One unfolding of the continuation loop, with the (always-successful) save
collapsed. -/
theorem runBatchAux_succ (pc : PersistCtx) (res : Nat → Except AiError (Option String))
    (abort : Nat → Bool) (s i r : Nat) (lc : List Chapter) (prog : Nat) :
    runBatchAux pc res abort s i (r + 1) lc prog =
      if abort i = true then ⟨lc, i, prog, RunHalt.userAbort⟩
      else
        match lc[s + i]?, res i with
        | none, _ => ⟨lc, i, prog, RunHalt.reachedEnd⟩
        | some _, Except.error _ => ⟨lc, i, i + 1, RunHalt.callError⟩
        | some target, Except.ok t =>
          runBatchAux pc res abort s (i + 1) r
            (lc.set (s + i)
              { target with content := chapterContentOfText t, isGenerated := true })
            (i + 1) := by
  rw [runBatchAux]
  by_cases ha : abort i = true
  · simp [ha]
  · simp only [ha, if_false, Bool.false_eq_true]
    cases hget : lc[s + i]? with
    | none => rfl
    | some target =>
      cases hres : res i with
      | error e => rfl
      | ok t => simp [saveChapterData_ok]

/-- C9: every persistence operation of the save collaborator — configuration,
outline, single unit, all units — catches its internal storage failures and
reports success to the caller, for every environment of file-system outcomes;
consequently a continuation run's observable outcome (final chapters, completed
count, progress, halt reason) is identical under any two persistence contexts,
so no storage failure can abort an in-progress multi-unit run or change its
state. -/
theorem persistence_isolated_c9 :
    (∀ (env : FsEnv) (novel : Novel) (chapter : Chapter) (index : Nat),
      saveNovelConfig env novel = Except.ok () ∧
      saveOutline env novel = Except.ok () ∧
      saveChapter env novel chapter index = Except.ok () ∧
      saveAllChapters env novel = Except.ok ()) ∧
    (∀ (pc₁ pc₂ : PersistCtx) (res : Nat → Except AiError (Option String))
        (abort : Nat → Bool) (s i r : Nat) (lc : List Chapter) (prog : Nat),
      runBatchAux pc₁ res abort s i r lc prog =
        runBatchAux pc₂ res abort s i r lc prog) := by
  constructor
  · intro env novel chapter index
    exact ⟨saveNovelConfig_ok env novel, saveOutline_ok env novel,
      saveChapter_ok env novel chapter index, saveAllChapters_ok env novel⟩
  · intro pc₁ pc₂ res abort s i r lc prog
    induction r generalizing i lc prog with
    | zero => rfl
    | succ n ih =>
      rw [runBatchAux_succ, runBatchAux_succ]
      by_cases ha : abort i = true
      · simp [ha]
      · simp only [ha, if_false, Bool.false_eq_true]
        cases hget : lc[s + i]? with
        | none => rfl
        | some target =>
          cases hres : res i with
          | error e => rfl
          | ok t => exact ih _ _ _

/-- Characterisation of a continuation run with no abort and only successful
calls: starting at loop counter `i` with `r` iterations of budget left, the run
completes `min r (available)` further units, updating exactly the positions
`s + i ≤ j < s + i + min r (available)` (each from its own call's text, with
the generated flag set) and leaving every other position untouched. -/
theorem runBatchAux_ok_char (pc : PersistCtx)
    (res : Nat → Except AiError (Option String)) (abort : Nat → Bool) (s : Nat)
    (hab : ∀ j, abort j = false)
    (hok : ∀ j, ∃ t, res j = Except.ok t) :
    ∀ (r i : Nat) (lc : List Chapter) (prog : Nat),
      (runBatchAux pc res abort s i r lc prog).chapters.length = lc.length ∧
      (runBatchAux pc res abort s i r lc prog).completed =
        i + min r (lc.length - (s + i)) ∧
      (runBatchAux pc res abort s i r lc prog).lastProgress =
        (if min r (lc.length - (s + i)) = 0 then prog
         else i + min r (lc.length - (s + i))) ∧
      (runBatchAux pc res abort s i r lc prog).halt =
        (if r ≤ lc.length - (s + i) then RunHalt.finished else RunHalt.reachedEnd) ∧
      (∀ j : Nat, (j < s + i ∨ s + i + min r (lc.length - (s + i)) ≤ j) →
        (runBatchAux pc res abort s i r lc prog).chapters[j]? = lc[j]?) ∧
      (∀ j : Nat, s + i ≤ j → j < s + i + min r (lc.length - (s + i)) →
        ∃ (c0 : Chapter) (t : Option String),
          lc[j]? = some c0 ∧ res (j - s) = Except.ok t ∧
          (runBatchAux pc res abort s i r lc prog).chapters[j]? =
            some { c0 with content := chapterContentOfText t, isGenerated := true }) := by
  intro r
  induction r with
  | zero =>
    intro i lc prog
    have h0 : runBatchAux pc res abort s i 0 lc prog =
        ⟨lc, i, prog, RunHalt.finished⟩ := rfl
    rw [h0]
    refine ⟨rfl, by simp, by simp, by simp, fun j _ => rfl, fun j h1 h2 => ?_⟩
    exfalso
    omega
  | succ n ih =>
    intro i lc prog
    rw [runBatchAux_succ]
    simp only [hab i, Bool.false_eq_true, if_false]
    cases hget : lc[s + i]? with
    | none =>
      have hb : lc.length ≤ s + i := by
        by_contra hcon
        push_neg at hcon
        rw [List.getElem?_eq_getElem hcon] at hget
        exact Option.noConfusion hget
      have hm0 : lc.length - (s + i) = 0 := by omega
      refine ⟨rfl, by simp [hm0], by simp [hm0], ?_, fun j _ => rfl,
        fun j h1 h2 => ?_⟩
      · rw [hm0, if_neg (by omega)]
      · exfalso
        omega
    | some target =>
      have hb : s + i < lc.length := by
        rcases List.getElem?_eq_some_iff.mp hget with ⟨hlt, _⟩
        exact hlt
      obtain ⟨t, ht⟩ := hok i
      simp only [ht]
      set lc2 : List Chapter :=
        lc.set (s + i)
          { target with content := chapterContentOfText t, isGenerated := true }
        with hlc2
      have hlen2 : lc2.length = lc.length := by
        rw [hlc2, List.length_set]
      obtain ⟨ih1, ih2, ih3, ih4, ih5, ih6⟩ := ih (i + 1) lc2 (i + 1)
      rw [hlen2] at ih1 ih2 ih3 ih4
      have hmin : min (n + 1) (lc.length - (s + i)) =
          min n (lc.length - (s + (i + 1))) + 1 := by omega
      refine ⟨ih1, ?_, ?_, ?_, ?_, ?_⟩
      · rw [ih2]
        omega
      · rw [ih3, hmin, if_neg (Nat.succ_ne_zero _)]
        by_cases hz : min n (lc.length - (s + (i + 1))) = 0
        · rw [if_pos hz, hz]
        · rw [if_neg hz]
          omega
      · rw [ih4]
        by_cases hle : n ≤ lc.length - (s + (i + 1))
        · rw [if_pos hle, if_pos (by omega)]
        · rw [if_neg hle, if_neg (by omega)]
      · intro j hj
        have hj2 : j < s + (i + 1) ∨
            s + (i + 1) + min n (lc2.length - (s + (i + 1))) ≤ j := by
          rw [hlen2]
          omega
        rw [ih5 j hj2, hlc2]
        exact List.getElem?_set_ne (by omega)
      · intro j hj1 hj2
        by_cases hji : j = s + i
        · subst hji
          have hfr := ih5 (s + i) (Or.inl (by omega))
          refine ⟨target, t, hget, ?_, ?_⟩
          · have hsi : s + i - s = i := by omega
            rw [hsi]
            exact ht
          · rw [hfr, hlc2, List.getElem?_set_self hb]
        · have hj1b : s + (i + 1) ≤ j := by omega
          have hj2b : j < s + (i + 1) + min n (lc2.length - (s + (i + 1))) := by
            rw [hlen2]
            omega
          obtain ⟨c0, t', h1, h2, h3⟩ := ih6 j hj1b hj2b
          refine ⟨c0, t', ?_, h2, h3⟩
          rw [← h1, hlc2]
          exact (List.getElem?_set_ne (by omega)).symm

/-! ## Theorems for C5 (frame property of a successful run) -/

/-- C5: for a continuation run of length `L` starting at position `P` in which
no cancellation occurs and every generation call succeeds, the run completes
exactly `min L (length − P)` units; every position in `P ≤ j < P + min L
(length − P)` ends with the generated flag set and a non-empty body, and every
position outside that range is left exactly as it was. -/
theorem continuation_frame_c5 (pc : PersistCtx)
    (res : Nat → Except AiError (Option String)) (abort : Nat → Bool)
    (chapters : List Chapter) (P L : Nat)
    (hab : ∀ j, abort j = false)
    (hok : ∀ j, ∃ t, res j = Except.ok t) :
    (runBatchAux pc res abort P 0 L chapters 0).completed =
      min L (chapters.length - P) ∧
    (runBatchAux pc res abort P 0 L chapters 0).chapters.length =
      chapters.length ∧
    (∀ j : Nat, (j < P ∨ P + min L (chapters.length - P) ≤ j) →
      (runBatchAux pc res abort P 0 L chapters 0).chapters[j]? = chapters[j]?) ∧
    (∀ j : Nat, P ≤ j → j < P + min L (chapters.length - P) →
      ∃ c : Chapter,
        (runBatchAux pc res abort P 0 L chapters 0).chapters[j]? = some c ∧
        c.isGenerated = true ∧ c.content ≠ "") := by
  obtain ⟨h1, h2, h3, h4, h5, h6⟩ := runBatchAux_ok_char pc res abort P hab hok L 0 chapters 0
  rw [Nat.add_zero] at h2 h5 h6
  refine ⟨by rw [h2]; omega, h1, h5, ?_⟩
  intro j hj1 hj2
  obtain ⟨c0, t, _, _, hset⟩ := h6 j hj1 hj2
  exact ⟨{ c0 with content := chapterContentOfText t, isGenerated := true },
    hset, rfl, chapterContentOfText_ne_empty t⟩

/-- C5 witness: the frame theorem applied to a concrete 2-chapter sequence with
run length 10 from position 0; both positions are completed. -/
theorem continuation_frame_c5_witness :
    (runBatchAux pcDemo resDemo noAbort 0 0 10 c5chapters 0).completed =
      min 10 (c5chapters.length - 0) := by
  have h := (continuation_frame_c5 pcDemo resDemo noAbort c5chapters 0 10
    (fun _ => rfl) (fun _ => ⟨some ("本章正文内容。"), rfl⟩)).1
  simpa using h

/-! ## Theorems for C6 (cooperative cancellation) -/

/-- Characterisation of a run whose abort flag first reads true at check `K`:
entering iteration `i ≤ K` (with the invariant `prog = i`), the run completes
exactly units `i..K-1`, halts with the user-abort status, and reports `K`. -/
theorem runBatchAux_abort_char (pc : PersistCtx)
    (res : Nat → Except AiError (Option String)) (abort : Nat → Bool)
    (s K : Nat)
    (habK : ∀ j, j < K → abort j = false) (habT : abort K = true)
    (hok : ∀ j, j < K → ∃ t, res j = Except.ok t) :
    ∀ (r i : Nat) (lc : List Chapter),
      i ≤ K → K < i + r → s + K ≤ lc.length →
      (runBatchAux pc res abort s i r lc i).completed = K ∧
      (runBatchAux pc res abort s i r lc i).lastProgress = K ∧
      (runBatchAux pc res abort s i r lc i).halt = RunHalt.userAbort ∧
      (runBatchAux pc res abort s i r lc i).chapters.length = lc.length ∧
      (∀ j : Nat, (j < s + i ∨ s + K ≤ j) →
        (runBatchAux pc res abort s i r lc i).chapters[j]? = lc[j]?) ∧
      (∀ j : Nat, s + i ≤ j → j < s + K →
        ∃ (c0 : Chapter) (t : Option String),
          lc[j]? = some c0 ∧
          (runBatchAux pc res abort s i r lc i).chapters[j]? =
            some { c0 with content := chapterContentOfText t, isGenerated := true }) := by
  intro r
  induction r with
  | zero =>
    intro i lc h1 h2 h3
    exfalso
    omega
  | succ n ih =>
    intro i lc h1 h2 h3
    rw [runBatchAux_succ]
    by_cases hiK : i = K
    · subst hiK
      rw [if_pos habT]
      refine ⟨rfl, rfl, rfl, rfl, fun j _ => rfl, fun j hj1 hj2 => ?_⟩
      exfalso
      omega
    · have hiltK : i < K := by omega
      rw [if_neg (by rw [habK i hiltK]; exact Bool.false_ne_true)]
      have hbi : s + i < lc.length := by omega
      have hget : lc[s + i]? = some (lc.get ⟨s + i, hbi⟩) := by
        rw [List.getElem?_eq_getElem hbi]
        rfl
      obtain ⟨t, ht⟩ := hok i hiltK
      simp only [hget, ht]
      set target : Chapter := lc.get ⟨s + i, hbi⟩ with htarget
      set lc2 : List Chapter :=
        lc.set (s + i)
          { target with content := chapterContentOfText t, isGenerated := true }
        with hlc2
      have hlen2 : lc2.length = lc.length := by
        rw [hlc2, List.length_set]
      obtain ⟨ih1, ih2, ih3, ih4, ih5, ih6⟩ :=
        ih (i + 1) lc2 (by omega) (by omega) (by rw [hlen2]; omega)
      rw [hlen2] at ih4
      refine ⟨ih1, ih2, ih3, ih4, ?_, ?_⟩
      · intro j hj
        have hj2 : j < s + (i + 1) ∨ s + K ≤ j := by omega
        rw [ih5 j hj2, hlc2]
        exact List.getElem?_set_ne (by omega)
      · intro j hj1 hj2
        by_cases hji : j = s + i
        · subst hji
          have hfr := ih5 (s + i) (Or.inl (by omega))
          refine ⟨target, t, ?_, ?_⟩
          · rw [hget]
          · rw [hfr, hlc2, List.getElem?_set_self hbi]
        · have hj1b : s + (i + 1) ≤ j := by omega
          obtain ⟨c0, t', hc1, hc3⟩ := ih6 j hj1b hj2
          refine ⟨c0, t', ?_, hc3⟩
          rw [← hc1, hlc2]
          exact (List.getElem?_set_ne (by omega)).symm

/-- C6: if the cooperative-cancel flag first reads true at the check opening
iteration `K` (it was down for the first `K` checks, whose calls all
succeeded), the run stops between units — after completing unit `K` and before
starting another: it halts with the user-abort status, reports completed-count
`K` (both the `completed` count and the last progress report), and exactly the
positions `P..P+K-1` end with the generated flag true (assuming no unit was
generated beforehand). -/
theorem cancellation_c6 (pc : PersistCtx)
    (res : Nat → Except AiError (Option String)) (abort : Nat → Bool)
    (chapters : List Chapter) (P L K : Nat)
    (hKL : K < L) (hbound : P + K ≤ chapters.length)
    (habK : ∀ j, j < K → abort j = false) (habT : abort K = true)
    (hok : ∀ j, j < K → ∃ t, res j = Except.ok t)
    (hinit : ∀ c ∈ chapters, c.isGenerated = false) :
    (runBatchAux pc res abort P 0 L chapters 0).completed = K ∧
    (runBatchAux pc res abort P 0 L chapters 0).lastProgress = K ∧
    (runBatchAux pc res abort P 0 L chapters 0).halt = RunHalt.userAbort ∧
    (∀ j : Nat, j < chapters.length →
      ((((runBatchAux pc res abort P 0 L chapters 0).chapters[j]?).map
        Chapter.isGenerated) = some true ↔ P ≤ j ∧ j < P + K)) := by
  obtain ⟨h1, h2, h3, h4, h5, h6⟩ :=
    runBatchAux_abort_char pc res abort P K habK habT hok L 0 chapters
      (by omega) (by omega) hbound
  rw [Nat.add_zero] at h5 h6
  refine ⟨h1, h2, h3, ?_⟩
  intro j hj
  constructor
  · intro hgen
    by_contra hrange
    have hout : j < P ∨ P + K ≤ j := by omega
    rw [h5 j hout] at hgen
    have hjlt : j < chapters.length := hj
    rw [List.getElem?_eq_getElem hjlt] at hgen
    have hmem : chapters[j] ∈ chapters := List.getElem_mem hjlt
    have hgen2 : chapters[j].isGenerated = true := by
      simpa using hgen
    rw [hinit chapters[j] hmem] at hgen2
    exact Bool.noConfusion hgen2
  · intro hrange
    obtain ⟨c0, t, hc1, hc2⟩ := h6 j hrange.1 hrange.2
    rw [hc2]
    rfl

/-- C6 witness: the cancellation theorem applied to a concrete 3-chapter run of
length 10 cancelled after one completed unit. -/
theorem cancellation_c6_witness :
    (runBatchAux pcDemo resDemo abortAfter1 0 0 10 c6chapters 0).completed = 1 ∧
    (runBatchAux pcDemo resDemo abortAfter1 0 0 10 c6chapters 0).lastProgress = 1 ∧
    (runBatchAux pcDemo resDemo abortAfter1 0 0 10 c6chapters 0).halt =
      RunHalt.userAbort := by
  have h := cancellation_c6 pcDemo resDemo abortAfter1 c6chapters 0 10 1
    (by omega) (by decide)
    (fun j hj => by
      have hj0 : j = 0 := by omega
      subst hj0
      rfl)
    rfl
    (fun j _ => ⟨some ("本章正文内容。"), rfl⟩)
    (by decide)
  exact ⟨h.1, h.2.1, h.2.2.1⟩

/-! ## Theorems for C7 (run length, start position, early completion) -/

/-- The scan `advanceStartAux` stops at the first position (at or after `i`)
whose chapter body does not exceed 500 characters, skipping only chapters whose
body exceeds 500 characters. Indices are relative to the scanned suffix. -/
theorem advanceStartAux_spec :
    ∀ (l : List Chapter) (i : Nat),
      i ≤ advanceStartAux l i ∧
      advanceStartAux l i - i ≤ l.length ∧
      (∀ m : Nat, i ≤ m → m < advanceStartAux l i →
        ∃ c : Chapter, l[m - i]? = some c ∧ 500 < c.content.length) ∧
      (advanceStartAux l i - i < l.length →
        ∃ c : Chapter, l[advanceStartAux l i - i]? = some c ∧
          c.content.length ≤ 500) := by
  intro l
  induction l with
  | nil =>
    intro i
    refine ⟨Nat.le_refl i, by simp [advanceStartAux], fun m h1 h2 => ?_, ?_⟩
    · exfalso
      simp only [advanceStartAux] at h2
      omega
    · intro h
      exfalso
      simp only [advanceStartAux, List.length_nil] at h
      omega
  | cons c rest ihl =>
    intro i
    by_cases hc : c.content.length > 500
    · have hstep : advanceStartAux (c :: rest) i = advanceStartAux rest (i + 1) := by
        simp [advanceStartAux, hc]
      obtain ⟨ihl1, ihl2, ihl3, ihl4⟩ := ihl (i + 1)
      rw [hstep]
      refine ⟨by omega, by simp only [List.length_cons]; omega, ?_, ?_⟩
      · intro m h1 h2
        by_cases hmi : m = i
        · subst hmi
          refine ⟨c, ?_, hc⟩
          have hmm : m - m = 0 := by omega
          rw [hmm]
          exact List.getElem?_cons_zero
        · obtain ⟨c2, hcg, hcl⟩ := ihl3 m (by omega) h2
          refine ⟨c2, ?_, hcl⟩
          have hmi2 : m - i = (m - (i + 1)) + 1 := by omega
          rw [hmi2, List.getElem?_cons_succ]
          exact hcg
      · intro hlt
        have hge : i + 1 ≤ advanceStartAux rest (i + 1) := ihl1
        have hlt2 : advanceStartAux rest (i + 1) - (i + 1) < rest.length := by
          simp only [List.length_cons] at hlt
          omega
        have hx : advanceStartAux rest (i + 1) - i =
            (advanceStartAux rest (i + 1) - (i + 1)) + 1 := by
          clear ihl ihl2 ihl3 ihl4 hstep hlt hlt2
          omega
        obtain ⟨c2, hcg, hcl⟩ := ihl4 hlt2
        refine ⟨c2, ?_, hcl⟩
        rw [hx, List.getElem?_cons_succ]
        exact hcg
    · have hstep : advanceStartAux (c :: rest) i = i := by
        simp [advanceStartAux, hc]
      rw [hstep]
      refine ⟨Nat.le_refl i, by simp, fun m h1 h2 => by omega, fun h => ?_⟩
      refine ⟨c, ?_, by omega⟩
      have hii : i - i = 0 := by omega
      rw [hii]
      exact List.getElem?_cons_zero

/-- The start scan over the whole chapter list: it returns the first position
at or after `i0` whose body is at most 500 characters long (or runs past the
end of the list). -/
theorem advanceStart_spec (chapters : List Chapter) (i0 : Nat) :
    i0 ≤ advanceStart chapters i0 ∧
    advanceStart chapters i0 - i0 ≤ chapters.length - i0 ∧
    (∀ m : Nat, i0 ≤ m → m < advanceStart chapters i0 →
      ∃ c : Chapter, chapters[m]? = some c ∧ 500 < c.content.length) ∧
    (advanceStart chapters i0 < chapters.length →
      ∃ c : Chapter, chapters[advanceStart chapters i0]? = some c ∧
        c.content.length ≤ 500) := by
  have hdef : advanceStart chapters i0 = advanceStartAux (chapters.drop i0) i0 := rfl
  obtain ⟨h1, h2, h3, h4⟩ := advanceStartAux_spec (chapters.drop i0) i0
  rw [List.length_drop] at h2 h4
  have hconv : ∀ m : Nat, i0 ≤ m → (chapters.drop i0)[m - i0]? = chapters[m]? := by
    intro m hm
    rw [List.getElem?_drop]
    congr 1
    omega
  rw [hdef]
  refine ⟨h1, h2, ?_, ?_⟩
  · intro m hm1 hm2
    obtain ⟨c, hcg, hcl⟩ := h3 m hm1 hm2
    exact ⟨c, by rw [← hconv m hm1]; exact hcg, hcl⟩
  · intro hlt
    have hlt2 : advanceStartAux (chapters.drop i0) i0 - i0 < chapters.length - i0 := by
      omega
    obtain ⟨c, hcg, hcl⟩ := h4 hlt2
    refine ⟨c, ?_, hcl⟩
    rw [← hconv (advanceStartAux (chapters.drop i0) i0) h1]
    exact hcg

set_option maxRecDepth 8192 in
/-- C7 counterexample: the claim says the run starts at the first unit whose
body is *below* the 500-character threshold; the code skips only bodies
*exceeding* 500 characters (`content.length > 500`), so with the selected
chapter's body exactly 500 characters long the run starts right there — at a
unit that is not below the threshold — rather than passing over it. -/
theorem continuation_c7_counterexample :
    computeStartIndex [c7c500] (some ("e0")) = 0 ∧
    ¬(c7c500.content.length < 500) ∧
    (handleBatchGenerate pcDemo resDemo noAbort [c7c500] (some ("e0"))).isSome =
      true := by
  refine ⟨rfl, by decide, rfl⟩

set_option maxRecDepth 8192 in
/-- C7 amended: a continuation run has run length 10 by default and starts at
the first unit at or after the currently selected one whose body is at most
500 characters long (the scan skips exactly the units whose bodies exceed 500
characters); if the run reaches the end of the unit list before exhausting the
run length it stops early with the reached-end status and reports the number
completed — in particular, a run with run length 10 on the 5-unit sequence
above starting at position 3 generates positions 3 and 4 only and reports
completed-count 2. -/
theorem continuation_c7_amended :
    CHAPTERS_TO_GEN = 10 ∧
    (∀ (chapters : List Chapter) (id : String) (k : Nat),
      chapters.findIdx? (fun c => c.id == id) = some k →
      k ≤ computeStartIndex chapters (some id) ∧
      (∀ m : Nat, k ≤ m → m < computeStartIndex chapters (some id) →
        ∃ c : Chapter, chapters[m]? = some c ∧ 500 < c.content.length) ∧
      (computeStartIndex chapters (some id) < chapters.length →
        ∃ c : Chapter, chapters[computeStartIndex chapters (some id)]? = some c ∧
          c.content.length ≤ 500)) ∧
    (computeStartIndex c7chapters (some ("k0")) = 3 ∧
      (handleBatchGenerate pcDemo resDemo noAbort c7chapters (some ("k0"))).map
        RunState.completed = some 2 ∧
      (handleBatchGenerate pcDemo resDemo noAbort c7chapters (some ("k0"))).map
        RunState.lastProgress = some 2 ∧
      (handleBatchGenerate pcDemo resDemo noAbort c7chapters (some ("k0"))).map
        RunState.halt = some RunHalt.reachedEnd) := by
  refine ⟨rfl, ?_, rfl, rfl, rfl, rfl⟩
  intro chapters id k hfind
  have hcsi : computeStartIndex chapters (some id) = advanceStart chapters k := by
    simp [computeStartIndex, hfind]
  obtain ⟨h1, _h2, h3, h4⟩ := advanceStart_spec chapters k
  rw [hcsi]
  exact ⟨h1, h3, h4⟩

set_option maxRecDepth 8192 in
/-- C7 witness: the amended theorem's start-selection clause applied to the
concrete 5-unit scenario sequence. -/
theorem continuation_c7_witness :
    ∃ c : Chapter, c7chapters[computeStartIndex c7chapters (some ("k0"))]? =
      some c ∧ c.content.length ≤ 500 :=
  ((continuation_c7_amended.2.1 c7chapters "k0" 0 rfl).2.2 (by decide))

end Xiaoshuo

